import Mathlib

/-!
Verification of the roadtrip-planner's core planning logic against its
specification.  The JavaScript source is shallowly embedded: pure
computations become Lean functions over `ℚ` (JS numbers are modelled as
exact rationals; the haversine distance, which is transcendental, is
abstracted as an arbitrary distance oracle `dist : Coord → Coord → ℚ`),
and external-provider calls (Wikipedia, Overpass, Nominatim) become
oracle functions passed in as parameters, with provider errors already
collapsed to empty results exactly as the source's try/catch blocks do.
-/

/-! ## Points of interest (src/utils.js) -/

/-- A point of interest as produced by the provider wrappers.  Coordinates
and URLs are dropped: no claim depends on them, and the generic-POI
coordinates are randomly jittered in the source. -/
structure Poi where
  title : String
  category : String
  source : String
  distanceMeters : ℚ
deriving DecidableEq, Repr

/-- JS strings are modelled as their character sequences.  `toLowerCase`
on the ASCII titles and categories of this program is per-character
lowercasing. -/
def lowerChars (s : String) : List Char :=
  s.data.map Char.toLower

/-- JS `trim`: strip leading and trailing whitespace. -/
def trimChars (cs : List Char) : List Char :=
  ((cs.dropWhile Char.isWhitespace).reverse.dropWhile Char.isWhitespace).reverse

/-- JS `s.includes(t)`: `t` occurs as a contiguous substring of `s`. -/
def strIncludes (s t : List Char) : Bool :=
  decide (t <:+: s)

/-- Normalised title used by `removeDuplicatePois`:
`poi.title.toLowerCase().trim()`. -/
def normTitle (p : Poi) : List Char :=
  trimChars (lowerChars p.title)

/-- Recursion of `removeDuplicatePois` (src/utils.js 2595–2603): the
`seen` set of normalised titles, the first occurrence of each title is
kept. -/
def removeDuplicatePoisGo (seen : List (List Char)) : List Poi → List Poi
  | [] => []
  | p :: rest =>
    if normTitle p ∈ seen then removeDuplicatePoisGo seen rest
    else p :: removeDuplicatePoisGo (normTitle p :: seen) rest

/-- `removeDuplicatePois` (src/utils.js 32–45 and 2595–2603; both drafts
have the same semantics): keep the first POI for each normalised title. -/
def removeDuplicatePois (pois : List Poi) : List Poi :=
  removeDuplicatePoisGo [] pois

/-- One branch of the preference `switch` in `fetchPoisSimple`
(src/utils.js 2563–2575): `category` is already lower-cased.  Unknown
preferences fall through to `default: return true`. -/
def prefMatches (category : List Char) (pref : String) : Bool :=
  if pref == "outdoor" then
    strIncludes category "park".data || strIncludes category "nature".data ||
      strIncludes category "outdoor".data
  else if pref == "cultural" then
    strIncludes category "museum".data || strIncludes category "historic".data ||
      strIncludes category "cultural".data
  else if pref == "entertainment" then
    strIncludes category "entertainment".data || strIncludes category "theater".data
  else if pref == "food" then
    strIncludes category "food".data || strIncludes category "restaurant".data
  else if pref == "family" then
    strIncludes category "family".data || strIncludes category "zoo".data ||
      strIncludes category "aquarium".data
  else if pref == "adventure" then
    strIncludes category "adventure".data || strIncludes category "sports".data
  else true

/-- `preferences.some(pref => ...)` applied to one POI. -/
def poiMatchesPrefs (preferences : List String) (poi : Poi) : Bool :=
  preferences.any (fun pref => prefMatches (lowerChars poi.category) pref)

/-- `createGenericPois` (src/utils.js 1058–1089): the fixed synthetic
fallback set, `source: 'generic'`.  The randomly jittered coordinates are
omitted. -/
def createGenericPois : List Poi :=
  [⟨"Local Park", "Park", "generic", 0⟩,
   ⟨"Historic Site", "Historic Site", "generic", 1000⟩,
   ⟨"Local Restaurant", "Food & Drink", "generic", 500⟩]

/-- `const targetRadius = 16000` in `fetchPoisSimple` (src/utils.js 2518). -/
def targetRadius : ℕ := 16000

/-- `searchRadii = [targetRadius, targetRadius * 2, targetRadius * 3]`
(src/utils.js 2519).  Note: the requested `radiusMeters` argument is not
consulted. -/
def searchRadii : List ℕ :=
  [targetRadius, targetRadius * 2, targetRadius * 3]

/-- The escalation loop of `fetchPoisSimple` (src/utils.js 2521–2551):
at each radius both providers are queried (errors yield `[]`), and the
loop stops at the first radius with a combined non-empty result. -/
def escalatePois (wiki ovp : ℕ → List Poi) : List ℕ → List Poi
  | [] => []
  | r :: rest =>
    let pois := wiki r ++ ovp r
    if pois.isEmpty then escalatePois wiki ovp rest else pois

/-- The POI list after escalation and the generic fallback
(src/utils.js 2521–2558). -/
def poisAfterEscalation (wiki ovp : ℕ → List Poi) : List Poi :=
  let pois := escalatePois wiki ovp searchRadii
  if pois.isEmpty then createGenericPois else pois

/-- The preference-filter stage of `fetchPoisSimple`
(src/utils.js 2560–2583): filtering is skipped for empty preference
lists and waived when it would leave nothing (fail-open). -/
def applyPreferences (preferences : List String) (pois : List Poi) : List Poi :=
  if preferences.isEmpty then pois
  else
    let filteredPois := pois.filter (poiMatchesPrefs preferences)
    if filteredPois.isEmpty then pois else filteredPois

/-- `fetchPoisSimple` (src/utils.js 2513–2589; src/ui.js 441–469 is the
same logic).  `wiki` and `ovp` are the `fetchWikipediaAttractions` and
`fetchOverpassAttractions` calls at the candidate's location, as
functions of the search radius, with thrown errors collapsed to `[]` as
the surrounding try/catch does. -/
def fetchPoisSimple (wiki ovp : ℕ → List Poi) (radiusMeters limit : ℕ)
    (preferences : List String) : List Poi :=
  (removeDuplicatePois (applyPreferences preferences (poisAfterEscalation wiki ovp))).take limit

/-! ## Route geometry (src/utils.js) -/

/-- A route vertex; the source stores GeoJSON `[lon, lat]` pairs. -/
structure Coord where
  lon : ℚ
  lat : ℚ
deriving DecidableEq, Repr

/-- The value returned by `findClosestPointOnRoute`
(src/utils.js 667–693): an interpolated point together with the target
distance and the index of the bounding segment. -/
structure RoutePoint where
  lat : ℚ
  lon : ℚ
  distanceFromStart : ℚ
  index : ℕ
deriving DecidableEq, Repr

/-- The segment loop of `findClosestPointOnRoute`: `currentDistance`
accumulates segment lengths until the segment containing
`targetDistance` is found, where the linear interpolation happens. -/
def findClosestPointOnRouteGo (dist : Coord → Coord → ℚ) (targetDistance : ℚ) :
    ℚ → ℕ → List Coord → Option RoutePoint
  | currentDistance, i, c1 :: c2 :: rest =>
    let segmentDistance := dist c1 c2
    if currentDistance + segmentDistance ≥ targetDistance then
      let frac := (targetDistance - currentDistance) / segmentDistance
      some ⟨c1.lat + (c2.lat - c1.lat) * frac,
            c1.lon + (c2.lon - c1.lon) * frac,
            targetDistance, i⟩
    else
      findClosestPointOnRouteGo dist targetDistance
        (currentDistance + segmentDistance) (i + 1) (c2 :: rest)
  | _, _, _ => none

/-- `findClosestPointOnRoute(coordinates, targetDistance)`
(src/utils.js 80–102 and 667–693; the drafts agree except that the first
omits the segment index).  `dist` abstracts the haversine
`calculateDistance`. -/
def findClosestPointOnRoute (dist : Coord → Coord → ℚ) (coordinates : List Coord)
    (targetDistance : ℚ) : Option RoutePoint :=
  findClosestPointOnRouteGo dist targetDistance 0 0 coordinates

/-- Per-segment distances of a polyline. -/
def segDists (dist : Coord → Coord → ℚ) : List Coord → List ℚ
  | c1 :: c2 :: rest => dist c1 c2 :: segDists dist (c2 :: rest)
  | _ => []

/-- Cumulative distance from the start to vertex `i`. -/
def cumAt (dist : Coord → Coord → ℚ) (coords : List Coord) (i : ℕ) : ℚ :=
  ((segDists dist coords).take i).sum

/-- Total polyline length. -/
def totalRouteDistance (dist : Coord → Coord → ℚ) (coords : List Coord) : ℚ :=
  (segDists dist coords).sum

/-! ## Route sampling / overnight scouting (src/utils.js 2195–2243) -/

/-- The candidate sequence sampled by `findOvernightStops`
(src/utils.js 2199–2204): 20 target distances at `totalDistance/20 * i`,
`i = 1..20`, each resolved through `findClosestPointOnRoute`. -/
def overnightCandidates (dist : Coord → Coord → ℚ) (coords : List Coord)
    (totalDistance : ℚ) : List (Option RoutePoint) :=
  (List.range 20).map (fun i =>
    findClosestPointOnRoute dist coords (totalDistance / 20 * ((i : ℚ) + 1)))

/-- A scouted overnight stop: the sampled point plus its accommodation
count (`accommodationScore`).  Name/address enrichment via
`reverseGeocode` is orthogonal to every claim and omitted. -/
structure ScoutStop where
  point : RoutePoint
  accommodationScore : ℕ
deriving DecidableEq, Repr

/-- `findOvernightStops` (src/utils.js 2195–2243): keep each sampled
candidate whose accommodation query returns a non-empty list.  `acc` is
the `findNearbyAccommodations` oracle (errors collapsed to `[]`, which
the catch block skips just like an empty result). -/
def findOvernightStopsScout (dist : Coord → Coord → ℚ) (acc : RoutePoint → List String)
    (coords : List Coord) (totalDistance : ℚ) : List ScoutStop :=
  (List.range 20).filterMap (fun i =>
    match findClosestPointOnRoute dist coords (totalDistance / 20 * ((i : ℚ) + 1)) with
    | none => none
    | some p =>
      let accommodations := acc p
      if accommodations.isEmpty then none
      else some ⟨p, accommodations.length⟩)

/-! ## Overnight-stop selection (src/utils.js 482–530, 951–1004,
2246–2294; src/ui.js 654–703) -/

/-- A candidate overnight stop as seen by the selectors: only
`distanceFromStart` and `accommodationScore` are consulted. -/
structure OStop where
  distanceFromStart : ℚ
  accommodationScore : ℚ
deriving DecidableEq, Repr

/-- The sort comparator shared by all selector drafts: descending
`accommodationScore`, ties broken by ascending distance from
`idealDailyDistance` (the JS comparator at src/utils.js 964–972).  As an
order relation for the stable sort. -/
def scoreRel (ideal : ℚ) (a b : OStop) : Prop :=
  b.accommodationScore < a.accommodationScore ∨
    (a.accommodationScore = b.accommodationScore ∧
      |a.distanceFromStart - ideal| ≤ |b.distanceFromStart - ideal|)

instance (ideal : ℚ) : DecidableRel (scoreRel ideal) := fun _ _ => by
  unfold scoreRel; infer_instance

instance (ideal : ℚ) : IsTotal OStop (scoreRel ideal) := by
  constructor
  intro a b
  unfold scoreRel
  rcases lt_trichotomy a.accommodationScore b.accommodationScore with h | h | h
  · exact Or.inr (Or.inl h)
  · rcases le_total |a.distanceFromStart - ideal| |b.distanceFromStart - ideal| with h2 | h2
    · exact Or.inl (Or.inr ⟨h, h2⟩)
    · exact Or.inr (Or.inr ⟨h.symm, h2⟩)
  · exact Or.inl (Or.inl h)

instance (ideal : ℚ) : IsTrans OStop (scoreRel ideal) := by
  constructor
  intro a b c hab hbc
  unfold scoreRel at *
  rcases hab with h1 | ⟨h1, h1d⟩
  · rcases hbc with h2 | ⟨h2, _⟩
    · exact Or.inl (h2.trans h1)
    · exact Or.inl (by rw [← h2]; exact h1)
  · rcases hbc with h2 | ⟨h2, h2d⟩
    · exact Or.inl (by rw [h1]; exact h2)
    · exact Or.inr ⟨h1.trans h2, h1d.trans h2d⟩

/-- Ascending `distanceFromStart`, the final re-sort comparator
(src/utils.js 1003, 527, 2291). -/
def dfsLE (a b : OStop) : Prop :=
  a.distanceFromStart ≤ b.distanceFromStart

instance : DecidableRel dfsLE := fun _ _ => by
  unfold dfsLE; infer_instance

instance : IsTotal OStop dfsLE :=
  ⟨fun a b => le_total a.distanceFromStart b.distanceFromStart⟩

instance : IsTrans OStop dfsLE :=
  ⟨fun _ _ _ hab hbc => le_trans hab hbc⟩

/-- The in-place `overnightStops.sort(...)` at the head of every
selector draft, modelled as the stable sort it performs (JS `sort` is
stable; the result for this comparator is engine-independent). -/
def sortStops (ideal : ℚ) (stops : List OStop) : List OStop :=
  List.insertionSort (scoreRel ideal) stops

/-- The final `selectedStops.sort((a, b) => a.distanceFromStart -
b.distanceFromStart)`. -/
def sortByDistance (stops : List OStop) : List OStop :=
  List.insertionSort dfsLE stops

/-- `!selectedStops.some(selected => Math.abs(selected.distanceFromStart
- stop.distanceFromStart) < spacingDist)`. -/
def notTooClose (spacingDist : ℚ) (selected : List OStop) (stop : OStop) : Bool :=
  !(selected.any (fun s =>
    decide (|s.distanceFromStart - stop.distanceFromStart| < spacingDist)))

/-- One iteration (day boundary `d`) of the selection loop shared by the
`selectOptimalStops`/`selectOvernightStops` drafts, with the draft's
tolerance and spacing factors as parameters: try the best in-tolerance
candidate, else fall back to the first sufficiently spaced stop in sorted
order. -/
def selOne (tol spacing : ℚ) (sorted : List OStop) (ideal : ℚ)
    (selected : List OStop) (d : ℕ) : List OStop :=
  let targetDistance := ideal * (d : ℚ)
  let tolerance := ideal * tol
  let candidateStops := sorted.filter (fun stop =>
    decide (|stop.distanceFromStart - targetDistance| ≤ tolerance) &&
      notTooClose (ideal * spacing) selected stop)
  match candidateStops with
  | c :: _ => selected ++ [c]
  | [] =>
    match sorted.find? (fun stop => notTooClose (ideal * spacing) selected stop) with
    | some c => selected ++ [c]
    | none => selected

/-- `for (let d = 1; d < days; d++) ...` over the sorted candidates. -/
def selectLoop (tol spacing : ℚ) (sorted : List OStop) (ideal : ℚ) (days : ℕ) : List OStop :=
  (List.range (days - 1)).foldl
    (fun selected i => selOne tol spacing sorted ideal selected (i + 1)) []

/-- The selector together with its side effect: the first component is
the caller's array after the in-place sort, the second the returned
selection (re-sorted ascending by distance). -/
def selectOvernightStopsFull (tol spacing : ℚ) (overnightStops : List OStop)
    (ideal : ℚ) (days : ℕ) : List OStop × List OStop :=
  let sorted := sortStops ideal overnightStops
  (sorted, sortByDistance (selectLoop tol spacing sorted ideal days))

/-- `selectOvernightStops` (src/utils.js 951–1004): empty-input guard,
tolerance `0.5`, spacing `0.3`, final ascending re-sort. -/
def selectOvernightStops (overnightStops : List OStop) (idealDailyDistance : ℚ)
    (days : ℕ) : List OStop :=
  if overnightStops.isEmpty then []
  else (selectOvernightStopsFull (1/2) (3/10) overnightStops idealDailyDistance days).2

/-- `selectOptimalStops` (src/utils.js 482–530): tolerance `0.4`,
spacing `0.2`; `idealDailyDuration` is accepted and ignored, as in the
source.  `selectOvernightStops` at src/utils.js 2246–2294 is the same
function without the duration argument. -/
def selectOptimalStops (accommodationStops : List OStop) (idealDailyDistance : ℚ)
    (idealDailyDuration : ℚ) (days : ℕ) : List OStop :=
  (selectOvernightStopsFull (2/5) (1/5) accommodationStops idealDailyDistance days).2

/-- One step of the ui.js candidate scan (src/ui.js 676–695): skip a
stop outside tolerance `0.5` or inside spacing `0.3` of a selected stop,
otherwise keep the strict-minimum of the score
`distanceFromTarget / ideal - accommodationScore * 0.1`. -/
def uiStep (ideal targetDistance : ℚ) (selected : List OStop)
    (best : Option (OStop × ℚ)) (stop : OStop) : Option (OStop × ℚ) :=
  let distanceFromTarget := |stop.distanceFromStart - targetDistance|
  if distanceFromTarget > ideal * (1/2) then best
  else if !(notTooClose (ideal * (3/10)) selected stop) then best
  else
    let score := distanceFromTarget / ideal - stop.accommodationScore * (1/10)
    match best with
    | none => some (stop, score)
    | some (b, bestScore) =>
      if score < bestScore then some (stop, score) else some (b, bestScore)

/-- The inner candidate scan of the ui.js selector (src/ui.js 676–695):
fold of `uiStep` over the sorted stops starting from `bestStop = null`
(`bestScore = Infinity`: the first surviving candidate always replaces
`null`). -/
def uiBestStop (sorted : List OStop) (ideal targetDistance : ℚ)
    (selected : List OStop) : Option (OStop × ℚ) :=
  sorted.foldl (uiStep ideal targetDistance selected) none

/-- One day boundary of the ui.js selection loop (src/ui.js 671–700):
push the best-scoring stop when the scan found one, else nothing
(no fallback). -/
def uiSelectStep (sorted : List OStop) (ideal : ℚ) (selected : List OStop)
    (i : ℕ) : List OStop :=
  match uiBestStop sorted ideal (ideal * ((i : ℚ) + 1)) selected with
  | some (b, _) => selected ++ [b]
  | none => selected

/-- `selectOvernightStops` (src/ui.js 654–703): same sort, then per day
boundary the best-scoring stop if any; no fallback and no final
re-sort. -/
def uiSelectOvernightStops (overnightStops : List OStop) (idealDailyDistance : ℚ)
    (days : ℕ) : List OStop :=
  (List.range (days - 1)).foldl
    (uiSelectStep (sortStops idealDailyDistance overnightStops) idealDailyDistance) []

/-! ## Day assembly (src/utils.js 833–949; src/config.js 34–49) -/

/-- A roadside attraction; only the category feeds the time lookup. -/
structure Attraction where
  title : String
  category : String
deriving DecidableEq, Repr

/-- A roadside stop bucketed into days by `distanceFromStart`. -/
structure RoadStop where
  distanceFromStart : ℚ
  attractions : List Attraction
deriving DecidableEq, Repr

/-- The pace-configuration fields consumed by the day assembly. -/
structure PaceConfig where
  maxDailyDrivingHours : ℚ
  maxRoadsideStops : ℕ
deriving DecidableEq, Repr

/-- `ACTIVITY_TIME_ESTIMATES` (src/config.js 34–49), hours by category. -/
def ACTIVITY_TIME_ESTIMATES : List (String × ℚ) :=
  [("Museum", 5/2), ("Zoo/Aquarium", 3), ("Park", 3/2), ("Historic Site", 3/2),
   ("Restaurant", 1), ("Scenic View", 1/2), ("Entertainment", 2),
   ("Outdoor Activity", 2), ("Cultural Site", 2), ("Food & Drink", 1),
   ("Family Activity", 2), ("Adventure", 3), ("Attraction", 3/2)]

/-- JS `x || d`: a missing key yields `undefined` and a zero value is
falsy; both fall back to the default (the table holds no zeros). -/
def falsyOr (v : Option ℚ) (d : ℚ) : ℚ :=
  match v with
  | none => d
  | some x => if x = 0 then d else x

/-- `ACTIVITY_TIME_ESTIMATES[attraction.category] || 1`
(src/utils.js 918): note the default is 1 hour. -/
def activityTimeEstimate (a : Attraction) : ℚ :=
  falsyOr (ACTIVITY_TIME_ESTIMATES.lookup a.category) 1

/-- Inner `reduce` of src/utils.js 917–919: hours for one stop. -/
def stopActivityTime (s : RoadStop) : ℚ :=
  s.attractions.foldl (fun t a => t + activityTimeEstimate a) 0

/-- `totalActivityTime` (src/utils.js 916–920): hours across the day's
roadside stops. -/
def totalActivityTime (stops : List RoadStop) : ℚ :=
  stops.foldl (fun t s => t + stopActivityTime s) 0

/-- Day bucketing of roadside stops (src/utils.js 901–903): stops in the
day's distance band, capped at `maxRoadsideStops`. -/
def dayRoadsideStops (roadsideStops : List RoadStop) (dayStart dayEnd : ℚ)
    (config : PaceConfig) : List RoadStop :=
  (roadsideStops.filter (fun s =>
    decide (dayStart ≤ s.distanceFromStart) && decide (s.distanceFromStart ≤ dayEnd))).take
    config.maxRoadsideStops

/-- The activity-budget check (src/utils.js 922–926): over-budget days
are truncated to `Math.floor(maxRoadsideStops * 0.7)` stops. -/
def feasibleRoadsideStops (config : PaceConfig) (dayStops : List RoadStop) : List RoadStop :=
  if totalActivityTime dayStops ≤ config.maxDailyDrivingHours * (3/5) then dayStops
  else dayStops.take (config.maxRoadsideStops * 7 / 10)

/-- The per-day roadside planning of `createSmartItinerary`
(src/utils.js 892–941), restricted to the fields the claims are about
(food options and driving distance involve only collaborator calls and
subtractions orthogonal to these claims). -/
structure DayPlanLite where
  day : ℕ
  roadsideStops : List RoadStop
  totalActivityTime : ℚ
deriving DecidableEq, Repr

/-- One iteration of the day loop in `createSmartItinerary`. -/
def assembleDay (roadsideStops : List RoadStop) (config : PaceConfig)
    (idealDailyDistance : ℚ) (day : ℕ) : DayPlanLite :=
  let dayStart := ((day : ℚ) - 1) * idealDailyDistance
  let dayEnd := (day : ℚ) * idealDailyDistance
  let dayStops := dayRoadsideStops roadsideStops dayStart dayEnd config
  ⟨day, feasibleRoadsideStops config dayStops, totalActivityTime dayStops⟩

/-! ## Helper lemmas: POI pipeline -/

theorem removeDuplicatePoisGo_subset :
    ∀ (pois : List Poi) (seen : List (List Char)),
      ∀ q ∈ removeDuplicatePoisGo seen pois, q ∈ pois := by
  intro pois
  induction pois with
  | nil => intro seen q hq; simp [removeDuplicatePoisGo] at hq
  | cons p rest ih =>
    intro seen q hq
    rw [removeDuplicatePoisGo] at hq
    by_cases hk : normTitle p ∈ seen
    · rw [if_pos hk] at hq
      exact List.mem_cons_of_mem p (ih seen q hq)
    · rw [if_neg hk] at hq
      rcases List.mem_cons.mp hq with hq | hq
      · exact hq ▸ List.mem_cons_self p rest
      · exact List.mem_cons_of_mem p (ih _ q hq)

theorem removeDuplicatePoisGo_countP (t : List Char) :
    ∀ (pois : List Poi) (seen : List (List Char)),
      (removeDuplicatePoisGo seen pois).countP (fun p => normTitle p == t) =
        if t ∈ seen then 0
        else if pois.any (fun p => normTitle p == t) then 1 else 0 := by
  intro pois
  induction pois with
  | nil =>
    intro seen
    simp [removeDuplicatePoisGo]
  | cons p rest ih =>
    intro seen
    rw [removeDuplicatePoisGo]
    by_cases hpt : normTitle p = t
    · have hbeq : (normTitle p == t) = true := by simp [hpt]
      by_cases hk : normTitle p ∈ seen
      · have ht : t ∈ seen := hpt ▸ hk
        rw [if_pos hk, ih seen, if_pos ht, if_pos ht]
      · have ht : t ∉ seen := fun h => hk (hpt ▸ h)
        rw [if_neg hk, List.countP_cons, ih (normTitle p :: seen)]
        have htk : t ∈ normTitle p :: seen := hpt ▸ List.mem_cons_self _ _
        rw [if_pos htk, if_neg ht]
        simp [hbeq]
    · have hbeq : (normTitle p == t) = false := by simp [hpt]
      have htk : (t ∈ normTitle p :: seen) ↔ t ∈ seen := by
        constructor
        · intro h
          rcases List.mem_cons.mp h with h | h
          · exact absurd h.symm hpt
          · exact h
        · exact List.mem_cons_of_mem _
      by_cases hk : normTitle p ∈ seen
      · rw [if_pos hk, ih seen]
        by_cases ht : t ∈ seen
        · rw [if_pos ht, if_pos ht]
        · rw [if_neg ht, if_neg ht, List.any_cons, hbeq]
          simp
      · rw [if_neg hk, List.countP_cons, ih (normTitle p :: seen)]
        by_cases ht : t ∈ seen
        · rw [if_pos (htk.mpr ht), if_pos ht]
          simp [hbeq]
        · rw [if_neg (fun h => ht (htk.mp h)), if_neg ht, List.any_cons, hbeq]
          simp [hbeq]

theorem removeDuplicatePois_ne_nil {pois : List Poi} (h : pois ≠ []) :
    removeDuplicatePois pois ≠ [] := by
  cases pois with
  | nil => exact absurd rfl h
  | cons p rest =>
    rw [removeDuplicatePois, removeDuplicatePoisGo]
    rw [if_neg (List.not_mem_nil (normTitle p))]
    exact List.cons_ne_nil _ _

theorem applyPreferences_ne_nil {preferences : List String} {pois : List Poi}
    (h : pois ≠ []) : applyPreferences preferences pois ≠ [] := by
  rw [applyPreferences]
  by_cases hp : preferences.isEmpty
  · rw [if_pos hp]; exact h
  · rw [if_neg hp]
    by_cases hf : (pois.filter (poiMatchesPrefs preferences)).isEmpty
    · rw [if_pos hf]; exact h
    · rw [if_neg hf]
      exact fun he => hf (by rw [he]; rfl)

theorem poisAfterEscalation_ne_nil (wiki ovp : ℕ → List Poi) :
    poisAfterEscalation wiki ovp ≠ [] := by
  rw [poisAfterEscalation]
  by_cases he : (escalatePois wiki ovp searchRadii).isEmpty
  · rw [if_pos he]; simp [createGenericPois]
  · rw [if_neg he]
    exact fun hn => he (by rw [hn]; rfl)

theorem take_ne_nil_of_pos {l : List Poi} {n : ℕ} (hn : 1 ≤ n) (h : l ≠ []) :
    l.take n ≠ [] := by
  cases l with
  | nil => exact absurd rfl h
  | cons a rest =>
    cases n with
    | zero => omega
    | succ m => simp [List.take]

theorem escalatePois_of_all_empty (wiki ovp : ℕ → List Poi) :
    ∀ radii : List ℕ, (∀ r ∈ radii, wiki r = [] ∧ ovp r = []) →
      escalatePois wiki ovp radii = [] := by
  intro radii
  induction radii with
  | nil => intro _; rfl
  | cons r rest ih =>
    intro h
    rw [escalatePois]
    have h1 := h r (List.mem_cons_self r rest)
    rw [h1.1, h1.2]
    simp only [List.nil_append, List.isEmpty_nil, if_true]
    exact ih fun s hs => h s (List.mem_cons_of_mem r hs)

theorem fetchPoisSimple_radius_ignored (wiki ovp : ℕ → List Poi)
    (radiusA radiusB limit : ℕ) (preferences : List String) :
    fetchPoisSimple wiki ovp radiusA limit preferences =
      fetchPoisSimple wiki ovp radiusB limit preferences := rfl

/-! ## Claims C3, C4, C5 -/

/-- C3 (amended): the POI scout's escalation ignores the requested
search radius entirely and always tries the fixed radii 16 km, 32 km,
48 km, stopping at the first radius where the combined provider results
are non-empty; if all three escalations return empty from both
providers, it returns the fixed generic placeholder set tagged
`source = "generic"`; for a positive limit the result is never empty. -/
theorem fetchPoisSimple_escalation (wiki ovp : ℕ → List Poi)
    (radiusMeters radiusMeters' limit : ℕ) (preferences : List String)
    (hlim : 1 ≤ limit) :
    fetchPoisSimple wiki ovp radiusMeters limit preferences =
        fetchPoisSimple wiki ovp radiusMeters' limit preferences ∧
    fetchPoisSimple wiki ovp radiusMeters limit preferences ≠ [] ∧
    ((∀ r ∈ searchRadii, wiki r = [] ∧ ovp r = []) →
      fetchPoisSimple wiki ovp radiusMeters limit [] =
          (removeDuplicatePois createGenericPois).take limit ∧
      ∀ p ∈ fetchPoisSimple wiki ovp radiusMeters limit [], p.source = "generic") ∧
    (wiki targetRadius ++ ovp targetRadius ≠ [] →
      fetchPoisSimple wiki ovp radiusMeters limit [] =
        (removeDuplicatePois (wiki targetRadius ++ ovp targetRadius)).take limit) := by
  refine ⟨rfl, ?_, ?_, ?_⟩
  · exact take_ne_nil_of_pos hlim
      (removeDuplicatePois_ne_nil
        (applyPreferences_ne_nil (poisAfterEscalation_ne_nil wiki ovp)))
  · intro hall
    have hesc : escalatePois wiki ovp searchRadii = [] :=
      escalatePois_of_all_empty wiki ovp searchRadii hall
    have hpa : poisAfterEscalation wiki ovp = createGenericPois := by
      rw [poisAfterEscalation, hesc]
      rfl
    constructor
    · rw [fetchPoisSimple, hpa]
      rfl
    · intro p hp
      rw [fetchPoisSimple, hpa] at hp
      have hp1 : p ∈ removeDuplicatePois (applyPreferences [] createGenericPois) :=
        List.mem_of_mem_take hp
    
      have hp2 : p ∈ createGenericPois :=
        removeDuplicatePoisGo_subset _ [] p hp1
      have hgen : ∀ q ∈ createGenericPois, q.source = "generic" := by decide
      exact hgen p hp2
  · intro hne
    have hesc : escalatePois wiki ovp searchRadii =
        wiki targetRadius ++ ovp targetRadius := by
      rw [searchRadii, escalatePois]
      rw [if_neg (by simpa using hne)]
    have hpa : poisAfterEscalation wiki ovp = wiki targetRadius ++ ovp targetRadius := by
      rw [poisAfterEscalation, hesc, if_neg (by simpa using hne)]
    rw [fetchPoisSimple, hpa]
    rfl

/-- C3 witness: with both providers empty at every escalation radius and
limit 12, the scout returns exactly the deduplicated generic set and a
non-empty result. -/
theorem fetchPoisSimple_escalation_witness :
    fetchPoisSimple (fun _ => []) (fun _ => []) 50000 12 [] =
        (removeDuplicatePois createGenericPois).take 12 ∧
    fetchPoisSimple (fun _ => []) (fun _ => []) 50000 12 [] ≠ [] :=
  ⟨((fetchPoisSimple_escalation (fun _ => []) (fun _ => []) 50000 30000 12 []
      (by decide)).2.2.1 (by decide)).1,
   (fetchPoisSimple_escalation (fun _ => []) (fun _ => []) 50000 30000 12 []
      (by decide)).2.1⟩

/-- C3 counterexample: calling `fetchPoisSimple` with requested radius
50000 m while the Wikipedia provider has a (non-generic) result exactly
at radius 50000 m still returns the synthetic generic set: the requested
radius `R` is never tried, refuting the claim's "tries radius R, then
2R, then 3R". -/
theorem fetchPoisSimple_requested_radius_cex :
    fetchPoisSimple
        (fun r => if r == 50000 then [⟨"Real Poi", "Museum", "wikipedia", 1⟩] else [])
        (fun _ => []) 50000 12 [] = createGenericPois ∧
    (if (50000 == 50000) then [(⟨"Real Poi", "Museum", "wikipedia", 1⟩ : Poi)] else []) ≠ [] ∧
    ∀ p ∈ createGenericPois, p.source = "generic" := by
  decide

/-- C4: if the preference filter would eliminate every POI from a
non-empty input, filtering is waived: the filter stage returns its input
unchanged, and the overall scout returns exactly what it returns with no
preferences at all (fail-open). -/
theorem fetchPoisSimple_fail_open (pois : List Poi) (preferences : List String)
    (wiki ovp : ℕ → List Poi) (radiusMeters limit : ℕ)
    (hne : pois ≠ []) (hp : preferences ≠ [])
    (hf : pois.filter (poiMatchesPrefs preferences) = []) :
    applyPreferences preferences pois = pois ∧
    (poisAfterEscalation wiki ovp = pois →
      fetchPoisSimple wiki ovp radiusMeters limit preferences =
        fetchPoisSimple wiki ovp radiusMeters limit []) := by
  have hwaive : applyPreferences preferences pois = pois := by
    rw [applyPreferences]
    rw [if_neg (by simpa using hp)]
    rw [hf]
    rfl
  refine ⟨hwaive, fun he => ?_⟩
  rw [fetchPoisSimple, fetchPoisSimple, he, hwaive]
  rfl

/-- C4 witness: the generic POI set (Park, Historic Site, Food & Drink)
against the single preference "entertainment", which matches none of the
three categories. -/
theorem fetchPoisSimple_fail_open_witness :
    applyPreferences ["entertainment"] createGenericPois = createGenericPois ∧
    fetchPoisSimple (fun _ => []) (fun _ => []) 16000 12 ["entertainment"] =
      fetchPoisSimple (fun _ => []) (fun _ => []) 16000 12 [] :=
  ⟨(fetchPoisSimple_fail_open createGenericPois ["entertainment"]
      (fun _ => []) (fun _ => []) 16000 12 (by decide) (by decide) (by decide)).1,
   (fetchPoisSimple_fail_open createGenericPois ["entertainment"]
      (fun _ => []) (fun _ => []) 16000 12 (by decide) (by decide) (by decide)).2
      (by decide)⟩

/-- C5: deduplication is by normalised title (lower-cased, trimmed):
whenever some input POI has normalised title `t`, exactly one POI with
normalised title `t` survives, and every retained POI is one of the
input POIs (dropped, not merged). -/
theorem removeDuplicatePois_dedup (pois : List Poi) (t : List Char)
    (h : ∃ p ∈ pois, normTitle p = t) :
    (removeDuplicatePois pois).countP (fun p => normTitle p == t) = 1 ∧
    ∀ q ∈ removeDuplicatePois pois, q ∈ pois := by
  constructor
  · rw [removeDuplicatePois, removeDuplicatePoisGo_countP]
    rcases h with ⟨p, hp, hpt⟩
    have hany : pois.any (fun p => normTitle p == t) = true := by
      rw [List.any_eq_true]
      exact ⟨p, hp, by simp [hpt]⟩
    simp [hany]
  · exact removeDuplicatePoisGo_subset pois []

/-- C5 witness: the spec's own example, "City Museum" from one source and
"city museum " from another, both normalising to "city museum": exactly
one POI with that normalised title is retained, and it is an input POI. -/
theorem removeDuplicatePois_dedup_witness :
    ((removeDuplicatePois
        [⟨"City Museum", "Museum", "wikipedia", 0⟩,
         ⟨"city museum ", "Museum", "overpass", 5⟩]).countP
      (fun p => normTitle p == "city museum".data)) = 1 ∧
    ∀ q ∈ removeDuplicatePois
        [⟨"City Museum", "Museum", "wikipedia", 0⟩,
         ⟨"city museum ", "Museum", "overpass", 5⟩],
      q ∈ [(⟨"City Museum", "Museum", "wikipedia", 0⟩ : Poi),
           ⟨"city museum ", "Museum", "overpass", 5⟩] :=
  removeDuplicatePois_dedup _ _
    ⟨⟨"City Museum", "Museum", "wikipedia", 0⟩, by decide, by decide⟩

/-! ## Helper lemmas: day assembly -/

theorem foldl_add_eq_sum (f : Attraction → ℚ) :
    ∀ (l : List Attraction) (x : ℚ),
      l.foldl (fun t a => t + f a) x = x + (l.map f).sum := by
  intro l
  induction l with
  | nil => intro x; simp
  | cons a rest ih =>
    intro x
    rw [List.foldl_cons, ih, List.map_cons, List.sum_cons]
    ring

theorem foldl_add_eq_sum_stops (f : RoadStop → ℚ) :
    ∀ (l : List RoadStop) (x : ℚ),
      l.foldl (fun t s => t + f s) x = x + (l.map f).sum := by
  intro l
  induction l with
  | nil => intro x; simp
  | cons s rest ih =>
    intro x
    rw [List.foldl_cons, ih, List.map_cons, List.sum_cons]
    ring

/-- The stops falling in one day's fixed-width distance band, capped at
the pace's `maxRoadsideStops` — exactly the list `assembleDay` budgets. -/
def dayBand (roadsideStops : List RoadStop) (config : PaceConfig)
    (idealDailyDistance : ℚ) (day : ℕ) : List RoadStop :=
  dayRoadsideStops roadsideStops (((day : ℚ) - 1) * idealDailyDistance)
    ((day : ℚ) * idealDailyDistance) config

/-! ## Claims C7, C8 -/

/-- C7: with `maxActivityHours = maxDailyDrivingHours * 0.6`, a day whose
banded roadside stops exceed the budget gets its list truncated to
`floor(maxRoadsideStops * 0.7)` entries; a day within budget keeps the
full (already day-capped) list. -/
theorem assembleDay_budget_truncation (roadsideStops : List RoadStop)
    (config : PaceConfig) (idealDailyDistance : ℚ) (day : ℕ) :
    (config.maxDailyDrivingHours * (3/5) <
        totalActivityTime (dayBand roadsideStops config idealDailyDistance day) →
      (assembleDay roadsideStops config idealDailyDistance day).roadsideStops =
        (dayBand roadsideStops config idealDailyDistance day).take
          (config.maxRoadsideStops * 7 / 10)) ∧
    (totalActivityTime (dayBand roadsideStops config idealDailyDistance day) ≤
        config.maxDailyDrivingHours * (3/5) →
      (assembleDay roadsideStops config idealDailyDistance day).roadsideStops =
        dayBand roadsideStops config idealDailyDistance day) := by
  constructor
  · intro hover
    simp only [dayBand] at hover ⊢
    simp only [assembleDay, feasibleRoadsideStops]
    rw [if_neg (not_le.mpr hover)]
  · intro hunder
    simp only [dayBand] at hunder ⊢
    simp only [assembleDay, feasibleRoadsideStops]
    rw [if_pos hunder]

/-- C7 witness: Scenario C.  Three stops (Museum 2.5h + Historic Site
1.5h + Restaurant 1h = 5.0h) against the balanced pace
`maxDailyDrivingHours = 6` (`maxActivityHours = 3.6`) and
`maxRoadsideStops = 3`: the day is truncated to
`floor(3 * 0.7) = 2` stops. -/
theorem assembleDay_budget_truncation_witness :
    (assembleDay
        [⟨10, [⟨"M", "Museum"⟩]⟩, ⟨20, [⟨"H", "Historic Site"⟩]⟩,
         ⟨30, [⟨"R", "Restaurant"⟩]⟩] ⟨6, 3⟩ 100 1).roadsideStops =
      (dayBand
        [⟨10, [⟨"M", "Museum"⟩]⟩, ⟨20, [⟨"H", "Historic Site"⟩]⟩,
         ⟨30, [⟨"R", "Restaurant"⟩]⟩] ⟨6, 3⟩ 100 1).take 2 :=
  (assembleDay_budget_truncation
      [⟨10, [⟨"M", "Museum"⟩]⟩, ⟨20, [⟨"H", "Historic Site"⟩]⟩,
       ⟨30, [⟨"R", "Restaurant"⟩]⟩] ⟨6, 3⟩ 100 1).1
    (by
      have h1 : ACTIVITY_TIME_ESTIMATES.lookup "Museum" = some (5/2) := by
        simp [ACTIVITY_TIME_ESTIMATES, List.lookup]
      have h2 : ACTIVITY_TIME_ESTIMATES.lookup "Historic Site" = some (3/2) := by
        simp [ACTIVITY_TIME_ESTIMATES, List.lookup]
      have h3 : ACTIVITY_TIME_ESTIMATES.lookup "Restaurant" = some 1 := by
        simp [ACTIVITY_TIME_ESTIMATES, List.lookup]
      norm_num [dayBand, dayRoadsideStops, totalActivityTime, stopActivityTime,
        activityTimeEstimate, falsyOr, h1, h2, h3])

/-- C8 (amended): `totalActivityHours` is the sum over the day's
roadside stops of the per-attraction time estimates from the fixed
category table, and an attraction whose category is absent from the
table contributes the default of 1 hour (not 1.5 as the spec states). -/
theorem totalActivityTime_estimates (stops : List RoadStop) :
    totalActivityTime stops =
        (stops.map (fun s => (s.attractions.map activityTimeEstimate).sum)).sum ∧
    ∀ a : Attraction, ACTIVITY_TIME_ESTIMATES.lookup a.category = none →
      activityTimeEstimate a = 1 := by
  constructor
  · rw [totalActivityTime]
    have hstop : ∀ s : RoadStop,
        stopActivityTime s = (s.attractions.map activityTimeEstimate).sum := by
      intro s
      rw [stopActivityTime, foldl_add_eq_sum]
      ring
    calc stops.foldl (fun t s => t + stopActivityTime s) 0
        = 0 + (stops.map stopActivityTime).sum := foldl_add_eq_sum_stops _ stops 0
      _ = (stops.map (fun s => (s.attractions.map activityTimeEstimate).sum)).sum := by
          rw [zero_add]
          congr 1
          exact List.map_congr_left fun s _ => hstop s
  · intro a ha
    rw [activityTimeEstimate, ha]
    rfl

/-- C8 witness: a single stop holding one attraction of the unknown
category "Waterfall" sums per the table, and the unknown category
contributes the 1-hour default. -/
theorem totalActivityTime_estimates_witness :
    totalActivityTime [⟨0, [⟨"X", "Waterfall"⟩]⟩] =
        ([(⟨0, [⟨"X", "Waterfall"⟩]⟩ : RoadStop)].map
          (fun s => (s.attractions.map activityTimeEstimate).sum)).sum ∧
    activityTimeEstimate ⟨"X", "Waterfall"⟩ = 1 :=
  ⟨(totalActivityTime_estimates [⟨0, [⟨"X", "Waterfall"⟩]⟩]).1,
   (totalActivityTime_estimates [⟨0, [⟨"X", "Waterfall"⟩]⟩]).2
     ⟨"X", "Waterfall"⟩ (by decide)⟩

/-- C8 counterexample: an attraction with a category outside the table
("Waterfall") contributes 1 hour, not the 1.5 hours the claim states:
the code uses `|| 1` (src/utils.js 918), not 1.5. -/
theorem totalActivityTime_default_cex :
    totalActivityTime [⟨0, [⟨"X", "Waterfall"⟩]⟩] = 1 ∧ (1 : ℚ) ≠ 3/2 := by
  constructor
  · have h : ACTIVITY_TIME_ESTIMATES.lookup "Waterfall" = none := by decide
    norm_num [totalActivityTime, stopActivityTime, activityTimeEstimate, falsyOr, h]
  · norm_num

/-! ## Helper lemmas: route interpolation -/

theorem cumAt_zero (dist : Coord → Coord → ℚ) (coords : List Coord) :
    cumAt dist coords 0 = 0 := by
  simp [cumAt]

theorem cumAt_cons_succ (dist : Coord → Coord → ℚ) (c1 c2 : Coord)
    (rest : List Coord) (k : ℕ) :
    cumAt dist (c1 :: c2 :: rest) (k + 1) =
      dist c1 c2 + cumAt dist (c2 :: rest) k := by
  simp [cumAt, segDists]

theorem cumAt_nonneg (dist : Coord → Coord → ℚ) (coords : List Coord)
    (hpos : ∀ d ∈ segDists dist coords, 0 < d) (k : ℕ) :
    0 ≤ cumAt dist coords k := by
  apply List.sum_nonneg
  intro d hd
  exact le_of_lt (hpos d (List.take_subset k _ hd))

theorem go_total (dist : Coord → Coord → ℚ) :
    ∀ (coords : List Coord) (cur : ℚ) (i : ℕ) (clast : Coord),
      (∀ d ∈ segDists dist coords, 0 < d) →
      coords.getLast? = some clast → 2 ≤ coords.length →
      findClosestPointOnRouteGo dist (cur + (segDists dist coords).sum) cur i coords =
        some ⟨clast.lat, clast.lon, cur + (segDists dist coords).sum,
              i + (coords.length - 2)⟩ := by
  intro coords
  induction coords with
  | nil => intro cur i clast _ _ hlen; simp at hlen
  | cons c1 rest ih =>
    cases rest with
    | nil => intro cur i clast _ _ hlen; simp at hlen
    | cons c2 rest2 =>
      intro cur i clast hpos hlast hlen
      have hd : 0 < dist c1 c2 := hpos _ (by rw [segDists]; exact List.mem_cons_self _ _)
      cases rest2 with
      | nil =>
        have hsum : (segDists dist [c1, c2]).sum = dist c1 c2 := by
          simp [segDists]
        have hcl : clast = c2 := by
          simp [List.getLast?] at hlast
          exact hlast.symm
        rw [findClosestPointOnRouteGo]
        rw [if_pos (by rw [hsum])]
        have hfrac : (cur + (segDists dist [c1, c2]).sum - cur) / dist c1 c2 = 1 := by
          rw [hsum]
          field_simp
        rw [hfrac, hcl]
        have h1 : c1.lat + (c2.lat - c1.lat) * 1 = c2.lat := by ring
        have h2 : c1.lon + (c2.lon - c1.lon) * 1 = c2.lon := by ring
        simp [h1, h2]
      | cons c3 rest3 =>
        have htail : segDists dist (c1 :: c2 :: c3 :: rest3) =
            dist c1 c2 :: segDists dist (c2 :: c3 :: rest3) := by
          rw [segDists]
        have hpos2 : ∀ d ∈ segDists dist (c2 :: c3 :: rest3), 0 < d := by
          intro d hdm
          exact hpos d (by rw [htail]; exact List.mem_cons_of_mem _ hdm)
        have hrest_pos : 0 < (segDists dist (c2 :: c3 :: rest3)).sum := by
          refine List.sum_pos _ hpos2 ?_
          rw [segDists]
          exact List.cons_ne_nil _ _
        rw [htail, List.sum_cons, findClosestPointOnRouteGo]
        rw [if_neg (by push_neg; linarith)]
        have ht : cur + (dist c1 c2 + (segDists dist (c2 :: c3 :: rest3)).sum) =
            (cur + dist c1 c2) + (segDists dist (c2 :: c3 :: rest3)).sum := by ring
        rw [ht]
        have hlast2 : (c2 :: c3 :: rest3).getLast? = some clast := by
          rwa [List.getLast?_cons_cons] at hlast
        rw [ih (cur + dist c1 c2) (i + 1) clast hpos2 hlast2 (by simp)]
        simp only [Option.some.injEq, RoutePoint.mk.injEq, List.length_cons,
          true_and, and_true]
        omega
        
      
        

theorem go_beyond (dist : Coord → Coord → ℚ) (t : ℚ) :
    ∀ (coords : List Coord) (cur : ℚ) (i : ℕ),
      (∀ d ∈ segDists dist coords, 0 < d) →
      cur + (segDists dist coords).sum < t →
      findClosestPointOnRouteGo dist t cur i coords = none := by
  intro coords
  induction coords with
  | nil => intro cur i _ _; rfl
  | cons c1 rest ih =>
    cases rest with
    | nil => intro cur i _ _; rfl
    | cons c2 rest2 =>
      intro cur i hpos hlt
      rw [segDists, List.sum_cons] at hlt
      have hpos2 : ∀ d ∈ segDists dist (c2 :: rest2), 0 < d := by
        intro d hd
        exact hpos d (by rw [segDists]; exact List.mem_cons_of_mem _ hd)
      have hrest_nonneg : 0 ≤ (segDists dist (c2 :: rest2)).sum := by
        apply List.sum_nonneg
        intro d hd
        exact le_of_lt (hpos2 d hd)
      rw [findClosestPointOnRouteGo]
      rw [if_neg (by push_neg; linarith)]
      exact ih (cur + dist c1 c2) (i + 1) hpos2 (by linarith)

theorem go_interp (dist : Coord → Coord → ℚ) (t : ℚ) :
    ∀ (coords : List Coord) (k : ℕ) (cur : ℚ) (i : ℕ)
      (hpos : ∀ d ∈ segDists dist coords, 0 < d)
      (hk : k + 1 < coords.length),
      cur + cumAt dist coords k < t →
      t ≤ cur + cumAt dist coords (k + 1) →
      findClosestPointOnRouteGo dist t cur i coords =
        some ⟨(coords.get ⟨k, Nat.lt_of_succ_lt hk⟩).lat +
                ((coords.get ⟨k + 1, hk⟩).lat -
                  (coords.get ⟨k, Nat.lt_of_succ_lt hk⟩).lat) *
                  ((t - (cur + cumAt dist coords k)) /
                    dist (coords.get ⟨k, Nat.lt_of_succ_lt hk⟩)
                      (coords.get ⟨k + 1, hk⟩)),
              (coords.get ⟨k, Nat.lt_of_succ_lt hk⟩).lon +
                ((coords.get ⟨k + 1, hk⟩).lon -
                  (coords.get ⟨k, Nat.lt_of_succ_lt hk⟩).lon) *
                  ((t - (cur + cumAt dist coords k)) /
                    dist (coords.get ⟨k, Nat.lt_of_succ_lt hk⟩)
                      (coords.get ⟨k + 1, hk⟩)),
              t, i + k⟩ := by
  intro coords
  induction coords with
  | nil => intro k cur i _ hk; simp at hk
  | cons c1 rest ih =>
    cases rest with
    | nil =>
      intro k cur i _ hk
      simp at hk
    | cons c2 rest2 =>
      intro k cur i hpos hk hlow hhigh
      cases k with
      | zero =>
        rw [cumAt_zero, add_zero] at hlow
        have hc1 : cumAt dist (c1 :: c2 :: rest2) (0 + 1) = dist c1 c2 := by
          rw [cumAt_cons_succ, cumAt_zero, add_zero]
        rw [hc1] at hhigh
        rw [findClosestPointOnRouteGo, if_pos (by linarith)]
        simp [cumAt_zero]
      | succ k2 =>
        have hd : 0 < dist c1 c2 := hpos _ (by rw [segDists]; exact List.mem_cons_self _ _)
        have hpos2 : ∀ d ∈ segDists dist (c2 :: rest2), 0 < d := by
          intro d hd2
          exact hpos d (by rw [segDists]; exact List.mem_cons_of_mem _ hd2)
        have hcum_nonneg : 0 ≤ cumAt dist (c2 :: rest2) k2 := cumAt_nonneg dist _ hpos2 k2
        have hlow2 : cur + cumAt dist (c1 :: c2 :: rest2) (k2 + 1) < t := hlow
        rw [cumAt_cons_succ] at hlow2
        have hk2 : k2 + 1 < (c2 :: rest2).length := by
          simp only [List.length_cons] at hk ⊢
          omega
        rw [findClosestPointOnRouteGo]
        rw [if_neg (by push_neg; linarith)]
        have hlow3 : (cur + dist c1 c2) + cumAt dist (c2 :: rest2) k2 < t := by linarith
        have hhigh3 : t ≤ (cur + dist c1 c2) + cumAt dist (c2 :: rest2) (k2 + 1) := by
          rw [cumAt_cons_succ] at hhigh
          linarith
        rw [ih k2 (cur + dist c1 c2) (i + 1) hpos2 hk2 hlow3 hhigh3]
        simp only [Option.some.injEq, RoutePoint.mk.injEq, List.get_cons_succ,
          cumAt_cons_succ, true_and, and_true]
        refine ⟨by ring_nf, by ring_nf, by omega⟩

/-! ## Claim C6 -/

/-- C6 (amended): on a polyline with at least two vertices and positive
segment distances, target `t = 0` returns the first vertex and
`t = totalDistance` returns the last; but for `t` strictly beyond the
total distance the function returns `none` (JS `null`), not the last
vertex; for intermediate `t` bounded by consecutive cumulative distances
the result is the linear interpolation
`lat1 + (lat2 - lat1) * ratio` with `ratio = (t - cumulative[k]) / d_k`
over the bounding segment `k`. -/
theorem findClosestPointOnRoute_edges (dist : Coord → Coord → ℚ)
    (coords : List Coord) (c0 clast : Coord)
    (hpos : ∀ d ∈ segDists dist coords, 0 < d)
    (hlen : 2 ≤ coords.length)
    (hc0 : coords.head? = some c0)
    (hlast : coords.getLast? = some clast) :
    findClosestPointOnRoute dist coords 0 = some ⟨c0.lat, c0.lon, 0, 0⟩ ∧
    findClosestPointOnRoute dist coords (totalRouteDistance dist coords) =
      some ⟨clast.lat, clast.lon, totalRouteDistance dist coords,
            coords.length - 2⟩ ∧
    (∀ t : ℚ, totalRouteDistance dist coords < t →
      findClosestPointOnRoute dist coords t = none) ∧
    (∀ (t : ℚ) (k : ℕ) (hk : k + 1 < coords.length),
      cumAt dist coords k < t → t ≤ cumAt dist coords (k + 1) →
      findClosestPointOnRoute dist coords t =
        some ⟨(coords.get ⟨k, Nat.lt_of_succ_lt hk⟩).lat +
                ((coords.get ⟨k + 1, hk⟩).lat -
                  (coords.get ⟨k, Nat.lt_of_succ_lt hk⟩).lat) *
                  ((t - cumAt dist coords k) /
                    dist (coords.get ⟨k, Nat.lt_of_succ_lt hk⟩)
                      (coords.get ⟨k + 1, hk⟩)),
              (coords.get ⟨k, Nat.lt_of_succ_lt hk⟩).lon +
                ((coords.get ⟨k + 1, hk⟩).lon -
                  (coords.get ⟨k, Nat.lt_of_succ_lt hk⟩).lon) *
                  ((t - cumAt dist coords k) /
                    dist (coords.get ⟨k, Nat.lt_of_succ_lt hk⟩)
                      (coords.get ⟨k + 1, hk⟩)),
              t, k⟩) := by
  refine ⟨?_, ?_, ?_, ?_⟩
  · match coords, hlen with
    | c1 :: c2 :: rest, _ =>
      have hd : 0 < dist c1 c2 := hpos _ (by rw [segDists]; exact List.mem_cons_self _ _)
      have hc1 : c0 = c1 := by
        simp [List.head?] at hc0
        exact hc0.symm
      subst hc1
      rw [findClosestPointOnRoute, findClosestPointOnRouteGo, if_pos (by linarith)]
      simp
  · have h := go_total dist coords 0 0 clast hpos hlast hlen
    rw [zero_add] at h
    rw [findClosestPointOnRoute, totalRouteDistance]
    simpa using h
  · intro t ht
    rw [totalRouteDistance] at ht
    exact go_beyond dist t coords 0 0 hpos (by linarith)
  · intro t k hk h1 h2
    have h := go_interp dist t coords k 0 0 hpos hk
      (by rwa [zero_add]) (by rwa [zero_add])
    rw [zero_add] at h
    rw [findClosestPointOnRoute, h]
    simp

/-- C6 witness: the three-vertex polyline (0,0)–(0,1)–(0,2) with constant
segment distance 10: `t = 0` gives the first vertex, `t = 20` (the total)
gives the last, `t = 21` gives `none`, and `t = 15` interpolates halfway
along segment 1. -/
theorem findClosestPointOnRoute_edges_witness :
    findClosestPointOnRoute (fun _ _ => 10) [⟨0, 0⟩, ⟨0, 1⟩, ⟨0, 2⟩] 0 =
        some ⟨0, 0, 0, 0⟩ ∧
    findClosestPointOnRoute (fun _ _ => 10) [⟨0, 0⟩, ⟨0, 1⟩, ⟨0, 2⟩]
        (totalRouteDistance (fun _ _ => 10) [⟨0, 0⟩, ⟨0, 1⟩, ⟨0, 2⟩]) =
      some ⟨2, 0, totalRouteDistance (fun _ _ => 10) [⟨0, 0⟩, ⟨0, 1⟩, ⟨0, 2⟩], 1⟩ ∧
    findClosestPointOnRoute (fun _ _ => 10) [⟨0, 0⟩, ⟨0, 1⟩, ⟨0, 2⟩] 21 = none ∧
    findClosestPointOnRoute (fun _ _ => 10) [⟨0, 0⟩, ⟨0, 1⟩, ⟨0, 2⟩] 15 =
      some ⟨3/2, 0, 15, 1⟩ := by
  have h := findClosestPointOnRoute_edges (fun _ _ => 10)
    [⟨0, 0⟩, ⟨0, 1⟩, ⟨0, 2⟩] ⟨0, 0⟩ ⟨0, 2⟩
    (by norm_num [segDists]) (by norm_num) rfl rfl
  refine ⟨h.1, h.2.1, h.2.2.1 21 (by norm_num [totalRouteDistance, segDists]), ?_⟩
  have h4 := h.2.2.2 15 1 (by norm_num) (by norm_num [cumAt, segDists])
    (by norm_num [cumAt, segDists])
  rw [h4]
  norm_num [cumAt, segDists]

/-- C6 counterexample: for `t = 11`, strictly greater than the total
distance 10 of the two-vertex polyline, the function returns `none`
(JS `null`), not the last vertex as the claim states for every
`t ≥ totalDistance`. -/
theorem findClosestPointOnRoute_beyond_total_cex :
    totalRouteDistance (fun _ _ => 10) [⟨0, 0⟩, ⟨0, 1⟩] = 10 ∧
    findClosestPointOnRoute (fun _ _ => 10) [⟨0, 0⟩, ⟨0, 1⟩] 11 = none := by
  constructor
  · norm_num [totalRouteDistance, segDists]
  · norm_num [findClosestPointOnRoute, findClosestPointOnRouteGo]

/-! ## Helper lemmas: overnight-stop selection -/

/-- The spacing guard as a relation between a previously selected stop
and a candidate. -/
def NotClose (sp : ℚ) (a b : OStop) : Prop :=
  ¬(|a.distanceFromStart - b.distanceFromStart| < sp)

theorem notTooClose_iff (sp : ℚ) (selected : List OStop) (stop : OStop) :
    notTooClose sp selected stop = true ↔ ∀ t ∈ selected, NotClose sp t stop := by
  simp [notTooClose, NotClose]

theorem selOne_length_le (tol spacing : ℚ) (sorted : List OStop) (ideal : ℚ)
    (selected : List OStop) (d : ℕ) :
    (selOne tol spacing sorted ideal selected d).length ≤ selected.length + 1 := by
  rw [selOne]
  split
  · simp
  · split
    · simp
    · simp

theorem length_le_selOne (tol spacing : ℚ) (sorted : List OStop) (ideal : ℚ)
    (selected : List OStop) (d : ℕ) :
    selected.length ≤ (selOne tol spacing sorted ideal selected d).length := by
  rw [selOne]
  split
  · simp
  · split
    · simp
    · simp

theorem selOne_nil_selected (tol spacing : ℚ) (sorted : List OStop) (ideal : ℚ)
    (d : ℕ) (hne : sorted ≠ []) :
    (selOne tol spacing sorted ideal [] d).length = 1 := by
  rw [selOne]
  split
  · simp
  · split
    · simp
    · rename_i hfind
      exfalso
      cases sorted with
      | nil => exact hne rfl
      | cons s ss =>
        have hp : notTooClose (ideal * spacing) [] s = true := by
          simp [notTooClose]
        rw [List.find?_eq_none] at hfind
        exact absurd hp (by simpa using hfind s (List.mem_cons_self s ss))

theorem selectLoop_length_aux (tol spacing : ℚ) (sorted : List OStop) (ideal : ℚ) :
    ∀ (l : List ℕ) (selected : List OStop),
      (l.foldl (fun sel i => selOne tol spacing sorted ideal sel (i + 1))
        selected).length ≤ selected.length + l.length := by
  intro l
  induction l with
  | nil => intro selected; simp
  | cons i rest ih =>
    intro selected
    rw [List.foldl_cons]
    calc (rest.foldl (fun sel i => selOne tol spacing sorted ideal sel (i + 1))
            (selOne tol spacing sorted ideal selected (i + 1))).length
        ≤ (selOne tol spacing sorted ideal selected (i + 1)).length + rest.length :=
          ih _
      _ ≤ (selected.length + 1) + rest.length := by
          have := selOne_length_le tol spacing sorted ideal selected (i + 1)
          omega
      _ = selected.length + (i :: rest).length := by simp; omega

theorem selectLoop_length_ge_aux (tol spacing : ℚ) (sorted : List OStop) (ideal : ℚ) :
    ∀ (l : List ℕ) (selected : List OStop),
      selected.length ≤
        (l.foldl (fun sel i => selOne tol spacing sorted ideal sel (i + 1))
          selected).length := by
  intro l
  induction l with
  | nil => intro selected; simp
  | cons i rest ih =>
    intro selected
    rw [List.foldl_cons]
    calc selected.length
        ≤ (selOne tol spacing sorted ideal selected (i + 1)).length :=
          length_le_selOne tol spacing sorted ideal selected (i + 1)
      _ ≤ _ := ih _

theorem selectLoop_length_le (tol spacing : ℚ) (sorted : List OStop) (ideal : ℚ)
    (days : ℕ) :
    (selectLoop tol spacing sorted ideal days).length ≤ days - 1 := by
  rw [selectLoop]
  have := selectLoop_length_aux tol spacing sorted ideal (List.range (days - 1)) []
  simpa using this

theorem selectLoop_length_pos (tol spacing : ℚ) (sorted : List OStop) (ideal : ℚ)
    (days : ℕ) (hdays : 2 ≤ days) (hne : sorted ≠ []) :
    1 ≤ (selectLoop tol spacing sorted ideal days).length := by
  rw [selectLoop]
  obtain ⟨m, hm⟩ : ∃ m, days - 1 = m + 1 := ⟨days - 2, by omega⟩
  rw [hm, List.range_succ_eq_map, List.foldl_cons]
  calc 1 = (selOne tol spacing sorted ideal [] (0 + 1)).length :=
        (selOne_nil_selected tol spacing sorted ideal (0 + 1) hne).symm
    _ ≤ _ := selectLoop_length_ge_aux tol spacing sorted ideal _ _

theorem selOne_pairwise (tol spacing : ℚ) (sorted : List OStop) (ideal : ℚ)
    (selected : List OStop) (d : ℕ)
    (h : List.Pairwise (NotClose (ideal * spacing)) selected) :
    List.Pairwise (NotClose (ideal * spacing))
      (selOne tol spacing sorted ideal selected d) := by
  rw [selOne]
  split
  · rename_i c rest heq
    have hc : c ∈ sorted.filter (fun stop =>
        decide (|stop.distanceFromStart - ideal * (d : ℚ)| ≤ ideal * tol) &&
          notTooClose (ideal * spacing) selected stop) := by
      rw [heq]; exact List.mem_cons_self c rest
    have hpred := (List.mem_filter.mp hc).2
    have hguard : notTooClose (ideal * spacing) selected c = true := by
      rw [Bool.and_eq_true] at hpred
      exact hpred.2
    have hall := (notTooClose_iff _ _ _).mp hguard
    rw [List.pairwise_append]
    exact ⟨h, List.pairwise_singleton _ _,
      fun a ha b hb => by simp at hb; subst hb; exact hall a ha⟩
  · split
    · rename_i c hfind
      have hguard : notTooClose (ideal * spacing) selected c = true :=
        List.find?_some hfind
      have hall := (notTooClose_iff _ _ _).mp hguard
      rw [List.pairwise_append]
      exact ⟨h, List.pairwise_singleton _ _,
        fun a ha b hb => by simp at hb; subst hb; exact hall a ha⟩
    · exact h

theorem selectLoop_pairwise (tol spacing : ℚ) (sorted : List OStop) (ideal : ℚ)
    (days : ℕ) :
    List.Pairwise (NotClose (ideal * spacing))
      (selectLoop tol spacing sorted ideal days) := by
  rw [selectLoop]
  have haux : ∀ (l : List ℕ) (selected : List OStop),
      List.Pairwise (NotClose (ideal * spacing)) selected →
      List.Pairwise (NotClose (ideal * spacing))
        (l.foldl (fun sel i => selOne tol spacing sorted ideal sel (i + 1))
          selected) := by
    intro l
    induction l with
    | nil => intro selected hs; simpa using hs
    | cons i rest ih =>
      intro selected hs
      rw [List.foldl_cons]
      exact ih _ (selOne_pairwise tol spacing sorted ideal selected (i + 1) hs)
  exact haux _ [] List.Pairwise.nil

theorem selOne_subset (tol spacing : ℚ) (sorted : List OStop) (ideal : ℚ)
    (selected : List OStop) (d : ℕ)
    (h : ∀ x ∈ selected, x ∈ sorted) :
    ∀ x ∈ selOne tol spacing sorted ideal selected d, x ∈ sorted := by
  intro x hx
  rw [selOne] at hx
  split at hx
  · rename_i c rest heq
    rcases List.mem_append.mp hx with hx2 | hx2
    · exact h x hx2
    · have hxc : x = c := by simpa using hx2
      subst hxc
      have hc : x ∈ sorted.filter (fun stop =>
          decide (|stop.distanceFromStart - ideal * (d : ℚ)| ≤ ideal * tol) &&
            notTooClose (ideal * spacing) selected stop) := by
        rw [heq]; exact List.mem_cons_self x rest
      exact (List.mem_filter.mp hc).1
  · split at hx
    · rename_i c hfind
      rcases List.mem_append.mp hx with hx2 | hx2
      · exact h x hx2
      · have hxc : x = c := by simpa using hx2
        subst hxc
        exact List.mem_of_find?_eq_some hfind
    · exact h x hx

theorem selectLoop_subset (tol spacing : ℚ) (sorted : List OStop) (ideal : ℚ)
    (days : ℕ) :
    ∀ x ∈ selectLoop tol spacing sorted ideal days, x ∈ sorted := by
  rw [selectLoop]
  have haux : ∀ (l : List ℕ) (selected : List OStop),
      (∀ x ∈ selected, x ∈ sorted) →
      ∀ x ∈ l.foldl (fun sel i => selOne tol spacing sorted ideal sel (i + 1))
          selected, x ∈ sorted := by
    intro l
    induction l with
    | nil => intro selected hs; simpa using hs
    | cons i rest ih =>
      intro selected hs
      rw [List.foldl_cons]
      exact ih _ (selOne_subset tol spacing sorted ideal selected (i + 1) hs)
  exact haux _ [] (by simp)

theorem uiStep_inv (ideal targetDistance : ℚ) (selected pool : List OStop)
    (acc : Option (OStop × ℚ)) (stop : OStop)
    (hacc : ∀ b sc, acc = some (b, sc) →
      notTooClose (ideal * (3/10)) selected b = true ∧ b ∈ pool)
    (hstop : stop ∈ pool) :
    ∀ b sc, uiStep ideal targetDistance selected acc stop = some (b, sc) →
      notTooClose (ideal * (3/10)) selected b = true ∧ b ∈ pool := by
  intro b sc heq
  rw [uiStep] at heq
  split at heq
  · exact hacc b sc heq
  · split at heq
    · exact hacc b sc heq
    · rename_i hntc
      have hg : notTooClose (ideal * (3/10)) selected stop = true := by
        simpa using hntc
      split at heq
      · rename_i hnone
        have hb : stop = b := by
          simpa using congrArg (Option.map Prod.fst) heq
        subst hb
        exact ⟨hg, hstop⟩
      · rename_i b1 sc1
        dsimp only at heq
        split at heq
        · have hb : stop = b := by
            simpa using congrArg (Option.map Prod.fst) heq
          subst hb
          exact ⟨hg, hstop⟩
        · exact hacc b sc (by rw [← heq])

theorem uiBestStop_some (sorted : List OStop) (ideal targetDistance : ℚ)
    (selected : List OStop) (b : OStop) (sc : ℚ)
    (h : uiBestStop sorted ideal targetDistance selected = some (b, sc)) :
    notTooClose (ideal * (3/10)) selected b = true ∧ b ∈ sorted := by
  rw [uiBestStop] at h
  have haux : ∀ (l : List OStop) (acc : Option (OStop × ℚ)),
      (∀ x ∈ l, x ∈ sorted) →
      (∀ b0 sc0, acc = some (b0, sc0) →
        notTooClose (ideal * (3/10)) selected b0 = true ∧ b0 ∈ sorted) →
      ∀ b0 sc0, l.foldl (uiStep ideal targetDistance selected) acc = some (b0, sc0) →
        notTooClose (ideal * (3/10)) selected b0 = true ∧ b0 ∈ sorted := by
    intro l
    induction l with
    | nil => intro acc _ hacc b0 sc0 h0; exact hacc b0 sc0 h0
    | cons x xs ih =>
      intro acc hl hacc b0 sc0 h0
      rw [List.foldl_cons] at h0
      exact ih _ (fun y hy => hl y (List.mem_cons_of_mem x hy))
        (uiStep_inv ideal targetDistance selected sorted acc x hacc
          (hl x (List.mem_cons_self x xs))) b0 sc0 h0
  exact haux sorted none (fun x hx => hx) (by simp) b sc h

theorem uiSelect_inv (overnightStops : List OStop) (ideal : ℚ) (days : ℕ) :
    List.Pairwise (NotClose (ideal * (3/10)))
        (uiSelectOvernightStops overnightStops ideal days) ∧
    ∀ x ∈ uiSelectOvernightStops overnightStops ideal days, x ∈ overnightStops := by
  have haux : ∀ (l : List ℕ) (sel : List OStop),
      List.Pairwise (NotClose (ideal * (3/10))) sel →
      (∀ x ∈ sel, x ∈ sortStops ideal overnightStops) →
      List.Pairwise (NotClose (ideal * (3/10)))
          (l.foldl (uiSelectStep (sortStops ideal overnightStops) ideal) sel) ∧
      ∀ x ∈ l.foldl (uiSelectStep (sortStops ideal overnightStops) ideal) sel,
        x ∈ sortStops ideal overnightStops := by
    intro l
    induction l with
    | nil => intro sel h1 h2; exact ⟨h1, h2⟩
    | cons i rest ih =>
      intro sel h1 h2
      rw [List.foldl_cons]
      rw [uiSelectStep]
      cases hb : uiBestStop (sortStops ideal overnightStops) ideal
          (ideal * ((i : ℚ) + 1)) sel with
      | none =>
        exact ih sel h1 h2
      | some bp =>
        obtain ⟨b, sc⟩ := bp
        have hbs := uiBestStop_some _ _ _ _ _ _ hb
        have hall := (notTooClose_iff _ _ _).mp hbs.1
        apply ih
        · rw [List.pairwise_append]
          exact ⟨h1, List.pairwise_singleton _ _,
            fun a ha c hc => by simp at hc; subst hc; exact hall a ha⟩
        · intro x hx
          rcases List.mem_append.mp hx with hx | hx
          · exact h2 x hx
          · have : x = b := by simpa using hx
            subst this
            exact hbs.2
  have hmain := haux (List.range (days - 1)) [] List.Pairwise.nil (by simp)
  rw [uiSelectOvernightStops]
  constructor
  · exact hmain.1
  · intro x hx
    have hx2 := hmain.2 x hx
    rw [sortStops] at hx2
    exact (List.mem_insertionSort _).mp hx2

theorem notClose_to_spacing {ideal sp : ℚ} (hideal : 0 ≤ ideal)
    (hsp : 1/5 ≤ sp) {a b : OStop} (h : NotClose (ideal * sp) a b) :
    ideal * (1/5) ≤ |a.distanceFromStart - b.distanceFromStart| := by
  rw [NotClose, not_lt] at h
  calc ideal * (1/5) ≤ ideal * sp := by nlinarith
    _ ≤ _ := h

theorem spacing_symmetric (ideal : ℚ) :
    Symmetric (fun a b : OStop =>
      ideal * (1/5) ≤ |a.distanceFromStart - b.distanceFromStart|) := by
  intro a b h
  rwa [abs_sub_comm]

/-! ## Claims C1, C2, C10 -/

/-- C1 (amended): the overnight selector returns at most `days - 1`
stops, always sorted ascending by `distanceFromStart`; with a non-empty
candidate list and at least two days it returns at least one stop, but
exactly `days - 1` is not guaranteed. -/
theorem selectOvernightStops_count_sorted (overnightStops : List OStop)
    (idealDailyDistance : ℚ) (days : ℕ) :
    (selectOvernightStops overnightStops idealDailyDistance days).length ≤ days - 1 ∧
    List.Sorted dfsLE (selectOvernightStops overnightStops idealDailyDistance days) ∧
    (2 ≤ days → overnightStops ≠ [] →
      1 ≤ (selectOvernightStops overnightStops idealDailyDistance days).length) := by
  rw [selectOvernightStops]
  by_cases hne : overnightStops.isEmpty = true
  · rw [if_pos hne]
    refine ⟨by simp, List.sorted_nil, fun _ hcontra => ?_⟩
    rw [List.isEmpty_iff] at hne
    exact absurd hne hcontra
  · rw [if_neg hne]
    simp only [selectOvernightStopsFull]
    refine ⟨?_, ?_, ?_⟩
    · rw [sortByDistance, (List.perm_insertionSort dfsLE _).length_eq]
      exact selectLoop_length_le _ _ _ _ _
    · rw [sortByDistance]
      exact List.sorted_insertionSort dfsLE _
    · intro hdays hne2
      rw [sortByDistance, (List.perm_insertionSort dfsLE _).length_eq]
      apply selectLoop_length_pos _ _ _ _ _ hdays
      intro hsort
      have hlen : (sortStops idealDailyDistance overnightStops).length =
          overnightStops.length := by
        rw [sortStops]
        exact (List.perm_insertionSort _ _).length_eq
      rw [hsort] at hlen
      exact hne2 (List.length_eq_zero.mp hlen.symm)

/-- C1 witness: two candidates at 100 km and 210 km for a 450 km route
over three days (`idealDailyDistance = 150`): at most two stops, sorted
ascending, and at least one stop. -/
theorem selectOvernightStops_count_sorted_witness :
    (selectOvernightStops [⟨100, 1⟩, ⟨210, 2⟩] 150 3).length ≤ 3 - 1 ∧
    List.Sorted dfsLE (selectOvernightStops [⟨100, 1⟩, ⟨210, 2⟩] 150 3) ∧
    1 ≤ (selectOvernightStops [⟨100, 1⟩, ⟨210, 2⟩] 150 3).length :=
  ⟨(selectOvernightStops_count_sorted [⟨100, 1⟩, ⟨210, 2⟩] 150 3).1,
   (selectOvernightStops_count_sorted [⟨100, 1⟩, ⟨210, 2⟩] 150 3).2.1,
   (selectOvernightStops_count_sorted [⟨100, 1⟩, ⟨210, 2⟩] 150 3).2.2
     (by norm_num) (by simp)⟩

/-- C1 counterexample: a single candidate at the first day boundary of a
300 km, 3-day route (`idealDailyDistance = 300/3 = 100`): the selector
returns 1 stop, not the `n - 1 = 2` the claim requires, because the
spacing guard rules the only candidate out for day 2 and the fallback
finds nothing. -/
theorem selectOvernightStops_exact_count_cex :
    (selectOvernightStops [⟨100, 1⟩] (300 / 3) 3).length = 1 ∧ (1 : ℕ) ≠ 3 - 1 := by
  constructor
  · norm_num [selectOvernightStops, selectOvernightStopsFull, sortStops,
      sortByDistance, List.insertionSort, List.orderedInsert, selectLoop, selOne,
      notTooClose, List.range, List.range.loop, scoreRel, dfsLE]
  · decide

/-- C2: in every selector draft, any two distinct selected overnight
stops lie at least `idealDailyDistance * 0.2` apart (the drafts enforce
spacing factors 0.3, 0.2 and 0.3 respectively, all at least 0.2),
provided the ideal daily distance is non-negative. -/
theorem overnight_spacing_invariant (overnightStops : List OStop)
    (idealDailyDistance idealDailyDuration : ℚ) (days : ℕ)
    (hideal : 0 ≤ idealDailyDistance) :
    List.Pairwise (fun a b : OStop =>
        idealDailyDistance * (1/5) ≤ |a.distanceFromStart - b.distanceFromStart|)
      (selectOvernightStops overnightStops idealDailyDistance days) ∧
    List.Pairwise (fun a b : OStop =>
        idealDailyDistance * (1/5) ≤ |a.distanceFromStart - b.distanceFromStart|)
      (selectOptimalStops overnightStops idealDailyDistance idealDailyDuration days) ∧
    List.Pairwise (fun a b : OStop =>
        idealDailyDistance * (1/5) ≤ |a.distanceFromStart - b.distanceFromStart|)
      (uiSelectOvernightStops overnightStops idealDailyDistance days) := by
  refine ⟨?_, ?_, ?_⟩
  · rw [selectOvernightStops]
    by_cases hne : overnightStops.isEmpty = true
    · rw [if_pos hne]
      exact List.Pairwise.nil
    · rw [if_neg hne]
      simp only [selectOvernightStopsFull]
      rw [sortByDistance]
      refine ((List.perm_insertionSort dfsLE _).pairwise_iff
        (fun hab => spacing_symmetric idealDailyDistance hab)).mpr ?_
      exact (selectLoop_pairwise (1/2) (3/10) _ idealDailyDistance days).imp
        (notClose_to_spacing hideal (by norm_num))
  · rw [selectOptimalStops]
    simp only [selectOvernightStopsFull]
    rw [sortByDistance]
    refine ((List.perm_insertionSort dfsLE _).pairwise_iff
      (fun hab => spacing_symmetric idealDailyDistance hab)).mpr ?_
    exact (selectLoop_pairwise (2/5) (1/5) _ idealDailyDistance days).imp
      (notClose_to_spacing hideal (by norm_num))
  · exact (uiSelect_inv overnightStops idealDailyDistance days).1.imp
      (notClose_to_spacing hideal (by norm_num))

/-- C2 witness: the spacing conjunction at two concrete candidates for a
450 km route over 3 days. -/
theorem overnight_spacing_invariant_witness :
    List.Pairwise (fun a b : OStop =>
        (150 : ℚ) * (1/5) ≤ |a.distanceFromStart - b.distanceFromStart|)
      (selectOvernightStops [⟨100, 1⟩, ⟨210, 2⟩] 150 3) ∧
    List.Pairwise (fun a b : OStop =>
        (150 : ℚ) * (1/5) ≤ |a.distanceFromStart - b.distanceFromStart|)
      (selectOptimalStops [⟨100, 1⟩, ⟨210, 2⟩] 150 0 3) ∧
    List.Pairwise (fun a b : OStop =>
        (150 : ℚ) * (1/5) ≤ |a.distanceFromStart - b.distanceFromStart|)
      (uiSelectOvernightStops [⟨100, 1⟩, ⟨210, 2⟩] 150 3) :=
  overnight_spacing_invariant [⟨100, 1⟩, ⟨210, 2⟩] 150 0 3 (by norm_num)

/-- C10: every selector draft first sorts the caller's candidate array
in place — after the call the caller's array is a permutation of its
input ordered by the score comparator — and every returned stop is an
element of that input array (nothing is fabricated).  The first two
conjuncts describe the post-call state of the argument array
(`selectOvernightStopsFull` returns it as its first component), the last
two the returned selections of the utils.js and ui.js drafts. -/
theorem selectOvernightStops_frame (tol spacing : ℚ) (overnightStops : List OStop)
    (ideal : ℚ) (days : ℕ) :
    List.Perm (selectOvernightStopsFull tol spacing overnightStops ideal days).1
      overnightStops ∧
    List.Sorted (scoreRel ideal)
      (selectOvernightStopsFull tol spacing overnightStops ideal days).1 ∧
    (∀ s ∈ (selectOvernightStopsFull tol spacing overnightStops ideal days).2,
      s ∈ overnightStops) ∧
    (∀ s ∈ uiSelectOvernightStops overnightStops ideal days, s ∈ overnightStops) := by
  refine ⟨?_, ?_, ?_, (uiSelect_inv overnightStops ideal days).2⟩
  · simp only [selectOvernightStopsFull]
    rw [sortStops]
    exact List.perm_insertionSort _ _
  · simp only [selectOvernightStopsFull]
    rw [sortStops]
    exact List.sorted_insertionSort _ _
  · intro s hs
    simp only [selectOvernightStopsFull] at hs
    rw [sortByDistance] at hs
    have hs2 : s ∈ selectLoop tol spacing (sortStops ideal overnightStops) ideal days :=
      (List.mem_insertionSort dfsLE).mp hs
    have hs3 := selectLoop_subset tol spacing _ ideal days s hs2
    rw [sortStops] at hs3
    exact (List.mem_insertionSort _).mp hs3

/-! ## Claim C9 -/

/-- C9: route sampling is deterministic.  The candidate sequence of
`findOvernightStops` is a pure function of the route geometry and the
total distance — two runs on equal inputs yield identical sequences
(same points, same order, same `distanceFromStart` values) — and every
stop any run emits carries one of those deterministic candidate points,
whatever the accommodation provider returns. -/
theorem routeSampler_deterministic (dist : Coord → Coord → ℚ)
    (coords coords' : List Coord) (totalDistance totalDistance' : ℚ)
    (h1 : coords = coords') (h2 : totalDistance = totalDistance') :
    overnightCandidates dist coords totalDistance =
        overnightCandidates dist coords' totalDistance' ∧
    ∀ (acc : RoutePoint → List String) (s : ScoutStop),
      s ∈ findOvernightStopsScout dist acc coords totalDistance →
      some s.point ∈ overnightCandidates dist coords totalDistance := by
  subst h1
  subst h2
  refine ⟨rfl, ?_⟩
  intro acc s hs
  rw [findOvernightStopsScout] at hs
  rcases List.mem_filterMap.mp hs with ⟨i, hi, hfi⟩
  rw [overnightCandidates]
  cases hfp : findClosestPointOnRoute dist coords
      (totalDistance / 20 * ((i : ℚ) + 1)) with
  | none =>
    rw [hfp] at hfi
    exact absurd hfi (by simp)
  | some p =>
    rw [hfp] at hfi
    simp only at hfi
    by_cases hacc : (acc p).isEmpty = true
    · rw [if_pos hacc] at hfi
      exact absurd hfi (by simp)
    · rw [if_neg hacc] at hfi
      have hsp : s.point = p := by
        have := Option.some.inj hfi
        rw [← this]
      exact List.mem_map.mpr ⟨i, hi, by rw [hfp, hsp]⟩

/-- C9 witness: a two-vertex route of constant segment distance 10 with
`totalDistance = 200`: the run's single scouted stop (at target 10, the
only reachable target) carries a point of the deterministic candidate
sequence, and the sequence equals itself across runs. -/
theorem routeSampler_deterministic_witness :
    overnightCandidates (fun _ _ => 10) [⟨0, 0⟩, ⟨0, 1⟩] 200 =
        overnightCandidates (fun _ _ => 10) [⟨0, 0⟩, ⟨0, 1⟩] 200 ∧
    some (⟨1, 0, 10, 0⟩ : RoutePoint) ∈
      overnightCandidates (fun _ _ => 10) [⟨0, 0⟩, ⟨0, 1⟩] 200 :=
  ⟨(routeSampler_deterministic (fun _ _ => 10) [⟨0, 0⟩, ⟨0, 1⟩]
      [⟨0, 0⟩, ⟨0, 1⟩] 200 200 rfl rfl).1,
   (routeSampler_deterministic (fun _ _ => 10) [⟨0, 0⟩, ⟨0, 1⟩]
      [⟨0, 0⟩, ⟨0, 1⟩] 200 200 rfl rfl).2 (fun _ => ["inn"]) ⟨⟨1, 0, 10, 0⟩, 1⟩
     (by
       norm_num [findOvernightStopsScout, findClosestPointOnRoute,
         findClosestPointOnRouteGo, List.range, List.range.loop,
         List.filterMap])⟩
